import Mathlib

/-!
# Verification of the dynamic-tracing probe lowering pass (Dwarvifier)

This file gives a shallow embedding, in Lean 4, of the probe lowering
compiler found in the repository source (the `Dwarvifier` class and its
free helper functions).  The C++ code translates a logical tracing probe
into a physical probe whose variables carry explicit memory recipes.

Modelling conventions:
* C++ `StatusOr<T>` / `Status` become `Except Err T`; the distinct
  `error::...` constructors become `ErrKind` values.
* The external DWARF reader is consumed through a narrow interface
  (`GetFunctionArgInfo`, `GetFunctionRetValInfo`, `GetStructMemberInfo`).
  We embed its responses as finite lookup tables carried inside the
  `Dwarvifier` state (`args_map_`, `retval_info_`, `struct_members`).
* `absl::flat_hash_map` instances that are only ever looked up are
  association lists with latest-insertion-wins lookup (`alookup` over a
  list where insertion conses at the front).
* Protobuf repeated-field access `fields(i)` aborts the process when the
  index is out of range (it is a bounds-checked accessor, not a Status
  return).  We model that abort with the distinguished error kind
  `ErrKind.CheckFailure`, which no C++ `Status` path ever produces.
* `int32_t` offsets are modelled as `Int` (the values manipulated here are
  tiny; overflow is unreachable for realistic DWARF offsets).
-/

deriving instance DecidableEq for Except

namespace DynamicTracing

/-- Source language of the traced binary (`ir::shared::Language`). -/
inductive Language
  | GOLANG
  | C
  | CPP
  | OTHERLANG
  deriving DecidableEq, Repr

/-- `ir::shared::ScalarType`: the closed scalar type enum of the physical IR. -/
inductive ScalarType
  | BOOL
  | SHORT
  | USHORT
  | INT
  | UINT
  | LONG
  | ULONG
  | LONGLONG
  | ULONGLONG
  | INT8
  | INT16
  | INT32
  | INT64
  | UINT8
  | UINT16
  | UINT32
  | UINT64
  | CHAR
  | UCHAR
  | FLOAT
  | DOUBLE
  | VOID_POINTER
  | STRING
  | BYTE_ARRAY
  deriving DecidableEq, Repr

/-- `dwarf_tools::VarType`: the DWARF-reported kind of a variable or type. -/
inductive VarType
  | kUnspecified
  | kVoid
  | kBaseType
  | kPointer
  | kStruct
  deriving DecidableEq, Repr

/-- `ir::shared::BPFHelper`: builtin helper functions of the probe runtime. -/
inductive BPFHelper
  | GOID
  | TGID
  | TGID_PID
  | TGID_START_TIME
  | KTIME
  | OTHERHELPER
  deriving DecidableEq, Repr

/-- `ir::physical::Register`: machine registers a variable may be bound to. -/
inductive Register
  | SP
  | RC
  deriving DecidableEq, Repr

/-- `ir::shared::TracePoint::Type`: entry or return probe. -/
inductive TracePointType
  | ENTRY
  | RETURN
  deriving DecidableEq, Repr

/-- The error constructors used by the pass (`error::InvalidArgument`,
`error::NotFound`, `error::Internal`), plus two outcomes that are NOT
returned `Status` values but abnormal process terminations:
`CheckFailure` models the abort from an out-of-range protobuf
repeated-field access, and `UncaughtException` models an uncaught C++
exception (`std::out_of_range` from `std::string_view::substr` with
`pos > size()`). -/
inductive ErrKind
  | InvalidArgument
  | NotFound
  | Internal
  | CheckFailure
  | UncaughtException
  deriving DecidableEq, Repr

/-- An error: a kind plus a human-readable message. -/
structure Err where
  kind : ErrKind
  msg : String
  deriving DecidableEq, Repr

/-- `dwarf_tools::ArgInfo`: DWARF-derived info for a function argument. -/
structure ArgInfo where
  type : VarType
  type_name : String
  offset : Int
  deriving DecidableEq, Repr

/-- `dwarf_tools::VarInfo`: DWARF-derived info for a struct member. -/
structure VarInfo where
  type : VarType
  type_name : String
  offset : Int
  deriving DecidableEq, Repr

/-- `dwarf_tools::RetValInfo`: DWARF-derived info for a function return value. -/
structure RetValInfo where
  type : VarType
  type_name : String
  deriving DecidableEq, Repr

/-- Generic association-list lookup; models `std::map` / `flat_hash_map`
`find` for containers that the pass only reads or overwrites wholesale. -/
def alookup {κ α : Type} [DecidableEq κ] (k : κ) : List (κ × α) → Option α
  | [] => none
  | (k', v) :: rest => if k = k' then some v else alookup k rest

/-- In-place update of the value bound to key `k` (models mutation through
the pointer stored in a `std::map<std::string, T*>` index). -/
def aset {κ α : Type} [DecidableEq κ] (k : κ) (v : α) : List (κ × α) → List (κ × α)
  | [] => []
  | (k', v') :: rest => if k = k' then (k, v) :: rest else (k', v') :: aset k v rest

/-- `kGoTypesMap`: Go base type names to scalar types. -/
def kGoTypesMap : List (String × ScalarType) :=
  [("bool", .BOOL),
   ("int", .INT),
   ("int8", .INT8),
   ("int16", .INT16),
   ("int32", .INT32),
   ("int64", .INT64),
   ("uint", .UINT),
   ("uint8", .UINT8),
   ("uint16", .UINT16),
   ("uint32", .UINT32),
   ("uint64", .UINT64),
   ("float32", .FLOAT),
   ("float64", .DOUBLE)]

/-- `kCPPTypesMap`: C/C++ base type names to scalar types. -/
def kCPPTypesMap : List (String × ScalarType) :=
  [("bool", .BOOL),
   ("short", .SHORT),
   ("unsigned short", .USHORT),
   ("int", .INT),
   ("unsigned int", .UINT),
   ("long int", .LONG),
   ("long unsigned int", .ULONG),
   ("long long int", .LONGLONG),
   ("long long unsigned int", .ULONGLONG),
   ("char", .CHAR),
   ("signed char", .CHAR),
   ("unsigned char", .UCHAR),
   ("double", .DOUBLE),
   ("float", .FLOAT)]

/-- `kEmptyTypesMap`: used for languages with no base-type table. -/
def kEmptyTypesMap : List (String × ScalarType) := []

/-- `GetTypesMap`: select the base-type table for a language. -/
def GetTypesMap : Language → List (String × ScalarType)
  | .GOLANG => kGoTypesMap
  | .C => kCPPTypesMap
  | .CPP => kCPPTypesMap
  | .OTHERLANG => kEmptyTypesMap

/-- `Dwarvifier::VarTypeToProtoScalarType`: map a DWARF (kind, type name)
pair to a scalar type, per language.  Base kinds are looked up in the
language table; pointer kinds always give `VOID_POINTER`; struct kinds are
accepted only for the two Go builtins `string` and `[]uint8`/`[]byte`;
everything else is an `error::Internal`. -/
def VarTypeToProtoScalarType (language_ : Language) (type : VarType)
    (name : String) : Except Err ScalarType :=
  match type with
  | .kBaseType =>
    match alookup name (GetTypesMap language_) with
    | some t => .ok t
    | none => .error ⟨.Internal, "Unrecognized base type: " ++ name⟩
  | .kPointer => .ok .VOID_POINTER
  | .kStruct =>
    if language_ = .GOLANG then
      if name = "string" then .ok .STRING
      else if name = "[]uint8" ∨ name = "[]byte" then .ok .BYTE_ARRAY
      else .error ⟨.Internal, "Unhandled type (struct): " ++ name⟩
    else .error ⟨.Internal, "Unhandled type (struct): " ++ name⟩
  | _ => .error ⟨.Internal, "Unhandled type: " ++ name⟩

/-- C3: the type mapper maps every pointer kind to `VOID_POINTER` for every
language and type name; a struct kind is accepted exactly when the language
is Go and the name is `string` (giving `STRING`) or `[]uint8`/`[]byte`
(giving `BYTE_ARRAY`); a void kind always errors; and a base kind whose
name is absent from the language table errors. -/
theorem C3_type_mapper :
    (∀ lang name, VarTypeToProtoScalarType lang .kPointer name = .ok .VOID_POINTER)
    ∧ (∀ lang name t,
        VarTypeToProtoScalarType lang .kStruct name = .ok t ↔
          (lang = .GOLANG ∧
            ((name = "string" ∧ t = .STRING)
             ∨ ((name = "[]uint8" ∨ name = "[]byte") ∧ t = .BYTE_ARRAY))))
    ∧ (∀ lang name, ∃ e, VarTypeToProtoScalarType lang .kVoid name = .error e)
    ∧ (∀ lang name, alookup name (GetTypesMap lang) = none →
        ∃ e, VarTypeToProtoScalarType lang .kBaseType name = .error e) := by
  refine ⟨fun lang name => rfl, fun lang name t => ?_, fun lang name => ⟨_, rfl⟩,
    fun lang name h => ?_⟩
  · unfold VarTypeToProtoScalarType
    cases lang <;> (first
      | (simp; split_ifs <;> simp_all <;> aesop)
      | simp)
  · unfold VarTypeToProtoScalarType
    rw [h]
    exact ⟨_, rfl⟩

/-- Witness for C3 at concrete inputs: a C pointer named `foo` maps to
`VOID_POINTER`; the Go struct `string` maps to `STRING`; the C++ base name
`notatype` is rejected. -/
theorem C3_type_mapper_witness :
    VarTypeToProtoScalarType .C .kPointer "foo" = .ok .VOID_POINTER
    ∧ VarTypeToProtoScalarType .GOLANG .kStruct "string" = .ok .STRING
    ∧ (∃ e, VarTypeToProtoScalarType .CPP .kBaseType "notatype" = .error e) := by
  refine ⟨C3_type_mapper.1 .C "foo", ?_, C3_type_mapper.2.2.2 .CPP "notatype" (by decide)⟩
  exact (C3_type_mapper.2.1 .GOLANG "string" .STRING).mpr ⟨rfl, .inl ⟨rfl, rfl⟩⟩

/-! ## Special variable names and constants -/

/-- `kSPVarName`: the stack-pointer register variable. -/
def kSPVarName : String := "sp_"

/-- `kTGIDVarName`: the thread-group id builtin variable. -/
def kTGIDVarName : String := "tgid_"

/-- `kTGIDPIDVarName`: the thread-group id + task id builtin variable. -/
def kTGIDPIDVarName : String := "tgid_pid_"

/-- `kTGIDStartTimeVarName`: the process start-time builtin variable. -/
def kTGIDStartTimeVarName : String := "tgid_start_time_"

/-- `kGOIDVarName`: the goroutine-id builtin variable (Go only). -/
def kGOIDVarName : String := "goid_"

/-- `kKTimeVarName`: the kernel-time builtin variable (used as the time
column by the downstream query engine; must not be renamed). -/
def kKTimeVarName : String := "time_"

/-- `kStartKTimeNSVarName`: the stashed start time read back for latency. -/
def kStartKTimeNSVarName : String := "start_ktime_ns"

/-- `kRCVarName`: the return-value register variable (C/C++ return probes). -/
def kRCVarName : String := "rc_"

/-- `Dwarvifier::kSPOffset`: DWARF and BCC disagree by 8 bytes on where the
stack pointer is; this constant compensates. -/
def kSPOffset : Int := 8

/-- `Dwarvifier::kDotStr`: name decoration for the field-selection operator. -/
def kDotStr : String := "_D_"

/-- `Dwarvifier::kDerefStr`: name decoration for the dereference operator. -/
def kDerefStr : String := "_X_"

/-- `StructTypeName`: the struct name associated with an Output or Map. -/
def StructTypeName (obj_name : String) : String := obj_name ++ "_value_t"

/-- `BPFHelperVariableName`: the predefined variable name of a builtin. -/
def BPFHelperVariableName : BPFHelper → Except Err String
  | .GOID => .ok kGOIDVarName
  | .TGID => .ok kTGIDVarName
  | .TGID_PID => .ok kTGIDPIDVarName
  | .TGID_START_TIME => .ok kTGIDStartTimeVarName
  | .KTIME => .ok kKTimeVarName
  | .OTHERHELPER =>
      .error ⟨.NotFound, "BPFHelper does not have a predefined variable"⟩

/-! ## Physical IR -/

/-- The address oneof of an `ir::physical::ScalarVariable`: register,
builtin, memory `(base, offset)`, literal constant, or binary expression.
Every call site of `Dwarvifier::AddVariable` in the source immediately
sets exactly one of these fields on the freshly added variable, so the
model passes the address together with the variable. -/
inductive VarAddr
  | reg (r : Register)
  | builtin (b : BPFHelper)
  | memory (base : String) (offset : Int)
  | constant (c : String)
  | binary (op : String) (lhs : String) (rhs : String)
  deriving DecidableEq, Repr

/-- One entry of the variable list of an `ir::physical::Probe`: the variants of
the `Variable` oneof that this pass emits. -/
inductive PhysVar
  | scalar (name : String) (type : ScalarType) (addr : VarAddr)
  | mapVar (name : String) (type : String) (map_name : String)
      (key_variable_name : String)
  | memberVar (name : String) (type : ScalarType) (struct_base : String)
      (is_struct_base_ptr : Bool) (field : String)
  | structVar (name : String) (type : String)
      (field_assignments : List (String × String))
  deriving DecidableEq, Repr

/-- The name of an emitted variable, over all variants. -/
def PhysVar.varName : PhysVar → String
  | .scalar n _ _ => n
  | .mapVar n _ _ _ => n
  | .memberVar n _ _ _ _ => n
  | .structVar n _ _ => n

/-- A field of an `ir::physical::Struct`. -/
structure StructField where
  name : String
  type : ScalarType
  deriving DecidableEq, Repr

/-- An `ir::physical::Struct`: a named, ordered field list. -/
structure PhysStruct where
  name : String
  fields : List StructField
  deriving DecidableEq, Repr

/-- An `ir::shared::Map` declaration; `none` models an unset proto field. -/
structure MapDecl where
  name : String
  key_type : Option ScalarType
  value_type : Option String
  deriving DecidableEq, Repr

/-- An `ir::physical::PerfBufferOutput`; `struct_type = ""` models the
unset proto3 string field. -/
structure PerfBufferOutput where
  name : String
  fields : List String
  struct_type : String
  deriving DecidableEq, Repr

/-- A physical `MapStashAction`. -/
structure PhysMapStashAction where
  map_name : String
  key_variable_name : String
  value_variable_name : String
  deriving DecidableEq, Repr

/-- A physical `MapDeleteAction`. -/
structure PhysMapDeleteAction where
  map_name : String
  key_variable_name : String
  deriving DecidableEq, Repr

/-- A physical `OutputAction`. -/
structure PhysOutputAction where
  perf_buffer_name : String
  variable_name : String
  deriving DecidableEq, Repr

/-- An `ir::physical::Probe` under construction: name, tracepoint type,
the ordered variable list, and the emitted actions. -/
structure PhysProbe where
  name : String
  tp_type : TracePointType
  vars : List PhysVar
  map_stash_actions : List PhysMapStashAction
  map_delete_actions : List PhysMapDeleteAction
  output_actions : List PhysOutputAction
  deriving DecidableEq, Repr

/-! ## Logical IR (inputs) -/

/-- An `ir::logical::Constant`. -/
structure Constant where
  name : String
  type : ScalarType
  constant : String
  deriving DecidableEq, Repr

/-- An `ir::logical::Argument`: user id plus dotted expression. -/
structure Argument where
  id : String
  expr : String
  deriving DecidableEq, Repr

/-- An `ir::logical::ReturnValue`: user id plus dotted expression. -/
structure ReturnValue where
  id : String
  expr : String
  deriving DecidableEq, Repr

/-- An `ir::logical::MapValue`: read action against a map. -/
structure MapValue where
  map_name : String
  key : BPFHelper
  value_ids : List String
  deriving DecidableEq, Repr

/-- An `ir::logical::MapStashAction`. -/
structure MapStashAction where
  map_name : String
  key : BPFHelper
  value_variable_name : List String
  deriving DecidableEq, Repr

/-- An `ir::logical::MapDeleteAction`. -/
structure MapDeleteAction where
  map_name : String
  key : BPFHelper
  deriving DecidableEq, Repr

/-- An `ir::logical::OutputAction`. -/
structure OutputAction where
  output_name : String
  variable_name : List String
  deriving DecidableEq, Repr

/-- An `ir::logical::Probe`. -/
structure LogicalProbe where
  name : String
  tp_type : TracePointType
  consts : List Constant
  args : List Argument
  ret_vals : List ReturnValue
  map_vals : List MapValue
  function_latency : Option String
  map_stash_actions : List MapStashAction
  map_delete_actions : List MapDeleteAction
  output_actions : List OutputAction
  deriving DecidableEq, Repr

/-! ## Dwarvifier state -/

/-- The member state of the `Dwarvifier`.  `struct_members` embeds the external
DWARF reader operation `GetStructMemberInfo` as a finite table keyed by
`(type name, field name)`; `args_map_` and `retval_info_` hold the
responses of `GetFunctionArgInfo` / `GetFunctionRetValInfo` for the probe
being processed, as in the source.  `prog_structs` is the struct list of
the output `ir::physical::Program`, and `structs_` the name-indexed
registry over it. -/
structure Dwarvifier where
  language_ : Language
  implicit_columns_ : List String
  args_map_ : List (String × ArgInfo)
  retval_info_ : RetValInfo
  struct_members : List ((String × String) × VarInfo)
  scalar_var_types_ : List (String × ScalarType)
  structs_ : List (String × PhysStruct)
  maps_ : List (String × MapDecl)
  outputs_ : List (String × PerfBufferOutput)
  prog_structs : List PhysStruct
  deriving DecidableEq, Repr

/-- `Dwarvifier::Setup` (state part): record the language and derive the
implicit columns (`tgid_`, `tgid_start_time_`, `time_`, plus `goid_` for
Go).  Opening the DWARF reader is I/O and is embedded by the oracle
tables already in the state. -/
def Dwarvifier.Setup (d : Dwarvifier) (language : Language) : Dwarvifier :=
  { d with
    language_ := language,
    implicit_columns_ :=
      [kTGIDVarName, kTGIDStartTimeVarName, kKTimeVarName]
      ++ (if language = .GOLANG then [kGOIDVarName] else []) }

/-- `dwarf_tools::DwarfReader::GetStructMemberInfo`, embedded as a lookup
in the oracle table; a missing entry models a DWARF error. -/
def GetStructMemberInfo (d : Dwarvifier) (type_name : String)
    (field_name : String) : Except Err VarInfo :=
  match alookup (type_name, field_name) d.struct_members with
  | some vi => .ok vi
  | none =>
      .error ⟨.Internal,
        "Struct member not found: " ++ type_name ++ " field " ++ field_name⟩

/-- `GetArgInfo`: find an argument in the DWARF argument map. -/
def GetArgInfo (args_map : List (String × ArgInfo)) (arg_name : String) :
    Except Err ArgInfo :=
  match alookup arg_name args_map with
  | some ai => .ok ai
  | none => .error ⟨.Internal, "Could not find argument " ++ arg_name⟩

/-- `Dwarvifier::AddVariable`: append a scalar variable to the probe and
record its type in the per-probe symbol table. -/
def AddVariable (d : Dwarvifier) (probe : PhysProbe) (name : String)
    (type : ScalarType) (addr : VarAddr) : Dwarvifier × PhysProbe :=
  ({ d with scalar_var_types_ := (name, type) :: d.scalar_var_types_ },
   { probe with vars := probe.vars ++ [.scalar name type addr] })

/-- `Dwarvifier::AddStandardVariables`: emit `sp_`, `tgid_`, `tgid_pid_`,
`tgid_start_time_`, `time_`, and `goid_` for Go. -/
def AddStandardVariables (d : Dwarvifier) (probe : PhysProbe) :
    Dwarvifier × PhysProbe :=
  let (d, probe) := AddVariable d probe kSPVarName .VOID_POINTER (.reg .SP)
  let (d, probe) := AddVariable d probe kTGIDVarName .INT32 (.builtin .TGID)
  let (d, probe) := AddVariable d probe kTGIDPIDVarName .UINT64 (.builtin .TGID_PID)
  let (d, probe) :=
    AddVariable d probe kTGIDStartTimeVarName .UINT64 (.builtin .TGID_START_TIME)
  let (d, probe) := AddVariable d probe kKTimeVarName .UINT64 (.builtin .KTIME)
  if d.language_ = .GOLANG then
    AddVariable d probe kGOIDVarName .INT64 (.builtin .GOID)
  else (d, probe)

/-- `Dwarvifier::AddRetProbeVariables`: emit `rc_` for C/C++. -/
def AddRetProbeVariables (d : Dwarvifier) (probe : PhysProbe) :
    Dwarvifier × PhysProbe :=
  if d.language_ = .C ∨ d.language_ = .CPP then
    AddVariable d probe kRCVarName .VOID_POINTER (.reg .RC)
  else (d, probe)

/-- `Dwarvifier::AddSpecialVariables`: standard variables always, return
probe variables when the tracepoint type is RETURN. -/
def AddSpecialVariables (d : Dwarvifier) (probe : PhysProbe) :
    Dwarvifier × PhysProbe :=
  let (d, probe) := AddStandardVariables d probe
  if probe.tp_type = .RETURN then AddRetProbeVariables d probe else (d, probe)

/-- `Dwarvifier::ProcessConstants`: emit the constant variable directly on
the probe.  Note: the source does NOT go through `AddVariable`, so the
per-probe symbol table `scalar_var_types_` is not updated. -/
def ProcessConstants (d : Dwarvifier) (probe : PhysProbe) (c : Constant) :
    Dwarvifier × PhysProbe :=
  (d, { probe with vars := probe.vars ++ [.scalar c.name c.type (.constant c.constant)] })

/-! ## Expression lowering -/

/-- The running loop state of `Dwarvifier::ProcessVarExpr`: current DWARF
kind, type name, accumulated offset, base variable, decorated name. -/
structure ExprState where
  type : VarType
  type_name : String
  offset : Int
  base : String
  name : String
  deriving DecidableEq, Repr

/-- The loop body of `Dwarvifier::ProcessVarExpr`, processing the interior
path components (everything after the root).  If the current kind is a
pointer, first emit a dereference intermediate (`_X_` suffix) and re-root
at it with offset 0; then consume one struct member (`_D_<field>` suffix),
adding its offset. -/
def ProcessVarExprLoop (d : Dwarvifier) (probe : PhysProbe) (es : ExprState) :
    List String → Except Err (Dwarvifier × PhysProbe × ExprState)
  | [] => .ok (d, probe, es)
  | field_name :: rest =>
    let step : Except Err (Dwarvifier × PhysProbe × ExprState) :=
      if es.type = .kPointer then
        match VarTypeToProtoScalarType d.language_ es.type es.type_name with
        | .error e => .error e
        | .ok pb_type =>
          let name := es.name ++ kDerefStr
          let (d, probe) := AddVariable d probe name pb_type (.memory es.base es.offset)
          .ok (d, probe, { es with name := name, base := name, offset := 0 })
      else .ok (d, probe, es)
    match step with
    | .error e => .error e
    | .ok (d, probe, es) =>
      match GetStructMemberInfo d es.type_name field_name with
      | .error e => .error e
      | .ok member_info =>
        ProcessVarExprLoop d probe
          { type := member_info.type,
            type_name := member_info.type_name,
            offset := es.offset + member_info.offset,
            base := es.base,
            name := es.name ++ kDotStr ++ field_name } rest

/-- `Dwarvifier::ProcessVarExpr`: lower one dotted expression.  The state
starts at the DWARF info of the root with offset `kSPOffset + root offset`; the
interior components run through `ProcessVarExprLoop`; a trailing pointer
is dereferenced and its kind forced to base; the leaf variable is emitted
under the original user-supplied id. -/
def ProcessVarExpr (d : Dwarvifier) (probe : PhysProbe) (var_name : String)
    (arg_info : ArgInfo) (base_var : String) (components : List String) :
    Except Err (Dwarvifier × PhysProbe) :=
  let es0 : ExprState :=
    { type := arg_info.type, type_name := arg_info.type_name,
      offset := kSPOffset + arg_info.offset, base := base_var, name := var_name }
  match ProcessVarExprLoop d probe es0 components.tail with
  | .error e => .error e
  | .ok (d, probe, es) =>
    let step : Except Err (Dwarvifier × PhysProbe × ExprState) :=
      if es.type = .kPointer then
        match VarTypeToProtoScalarType d.language_ es.type es.type_name with
        | .error e => .error e
        | .ok pb_type =>
          let name := es.name ++ kDerefStr
          let (d, probe) := AddVariable d probe name pb_type (.memory es.base es.offset)
          .ok (d, probe,
            { es with name := name ++ kDerefStr, base := name, offset := 0,
                      type := .kBaseType })
      else .ok (d, probe, es)
    match step with
    | .error e => .error e
    | .ok (d, probe, es) =>
      match VarTypeToProtoScalarType d.language_ es.type es.type_name with
      | .error e => .error e
      | .ok pb_type =>
        .ok (AddVariable d probe var_name pb_type (.memory es.base es.offset))

/-- Character-list worker for `StrSplitDot`. -/
def splitDotAux : List Char → List Char → List String
  | [], acc => [String.mk acc.reverse]
  | c :: cs, acc =>
    if c = '.' then String.mk acc.reverse :: splitDotAux cs []
    else splitDotAux cs (c :: acc)

/-- `absl::StrSplit(s, ".")`: split on every dot, keeping empty pieces. -/
def StrSplitDot (s : String) : List String := splitDotAux s.toList []

/-- Drop the first character of a string (plain helper; the result of a
successful `substr(1)`). -/
def strDropOne (s : String) : String := String.mk (s.toList.drop 1)

/-- `std::string_view::substr(1)`: drops the first character when the
string is nonempty; on the empty string `pos > size()` holds and the call
throws `std::out_of_range`, which nothing in the pass catches — an
abnormal termination modelled by `ErrKind.UncaughtException`. -/
def SubstrOne (s : String) : Except Err String :=
  if s = "" then .error ⟨.UncaughtException, "substr pos out of range"⟩
  else .ok (strDropOne s)

/-- `Dwarvifier::ProcessArgExpr`: split the expression on dots, resolve the
root in the DWARF argument map, and lower starting from `sp_`. -/
def ProcessArgExpr (d : Dwarvifier) (probe : PhysProbe) (arg : Argument) :
    Except Err (Dwarvifier × PhysProbe) :=
  if arg.expr = "" then
    .error ⟨.InvalidArgument, "Argument expression cannot be empty: " ++ arg.id⟩
  else
    let components := StrSplitDot arg.expr
    match GetArgInfo d.args_map_ (components.headD "") with
    | .error e => .error e
    | .ok arg_info => ProcessVarExpr d probe arg.id arg_info kSPVarName components

/-- Digit-accumulation worker for `SimpleAtoi`; fails on any non-digit. -/
def digitsToNatAux : List Char → Nat → Option Nat
  | [], acc => some acc
  | c :: cs, acc =>
    if c.isDigit then digitsToNatAux cs (acc * 10 + (c.toNat - 48)) else none

/-- Parse a nonempty all-digit character list as a natural number. -/
def digitsToNat : List Char → Option Nat
  | [] => none
  | l => digitsToNatAux l 0

/-- `absl::SimpleAtoi`: parse a whole string as a base-10 integer with an
optional leading sign; any other character fails the parse. -/
def SimpleAtoi (s : String) : Option Int :=
  match s.toList with
  | [] => none
  | c :: rest =>
    if c = '-' then (digitsToNat rest).map (fun n => -(n : Int))
    else if c = '+' then (digitsToNat rest).map (fun n => (n : Int))
    else (digitsToNat (c :: rest)).map (fun n => (n : Int))

/-- `Dwarvifier::ProcessRetValExpr`: the first component, with its first
character dropped via `substr(1)` (which throws on an empty component),
must parse as the return index.  Go synthesizes the `~r<index>` root and
lowers from `sp_`; C/C++ accept only index 0 and then dispatch on the
DWARF return kind (base: single register variable on RC; pointer: lower
from `rc_` with an ArgInfo whose offset is 0; void or other: error);
other languages error. -/
def ProcessRetValExpr (d : Dwarvifier) (probe : PhysProbe) (ret_val : ReturnValue) :
    Except Err (Dwarvifier × PhysProbe) :=
  if ret_val.expr = "" then
    .error ⟨.InvalidArgument, "ReturnValue expression cannot be empty: " ++ ret_val.id⟩
  else
    let components := StrSplitDot ret_val.expr
    match SubstrOne (components.headD "") with
    | .error e => .error e
    | .ok tail =>
    match SimpleAtoi tail with
    | none =>
        .error ⟨.InvalidArgument,
          "ReturnValue expression invalid, first component must be dollar-index: "
          ++ ret_val.expr⟩
    | some index =>
      match d.language_ with
      | .GOLANG =>
        let ret_val_name := "~r" ++ toString index
        let components := ret_val_name :: components.tail
        match GetArgInfo d.args_map_ (components.headD "") with
        | .error e => .error e
        | .ok arg_info =>
            ProcessVarExpr d probe ret_val.id arg_info kSPVarName components
      | .C | .CPP =>
        if index ≠ 0 then
          .error ⟨.Internal, "C and C++ only support a single return value"⟩
        else
          match d.retval_info_.type with
          | .kBaseType =>
            match VarTypeToProtoScalarType d.language_ d.retval_info_.type
                d.retval_info_.type_name with
            | .error e => .error e
            | .ok pb_type => .ok (AddVariable d probe ret_val.id pb_type (.reg .RC))
          | .kPointer =>
            let retval : ArgInfo :=
              { type := d.retval_info_.type,
                type_name := d.retval_info_.type_name, offset := 0 }
            ProcessVarExpr d probe ret_val.id retval kRCVarName components
          | .kVoid =>
            .error ⟨.Internal,
              "Attempting to process return variable for function with void return"⟩
          | _ => .error ⟨.Internal, "Unexpected var type"⟩
      | .OTHERLANG =>
          .error ⟨.Internal, "Return expressions not yet supported for language"⟩

/-! ## Map access, stash, delete, output -/

/-- The member-unpack loop of `Dwarvifier::ProcessMapVal`: for each value
id, read the i-th field of the registered value struct and emit a
pointer-based Member variable.  The source indexes `struct_decl->fields(i)`
with no bounds check: the protobuf accessor aborts the process when `i`
is out of range, modelled by `ErrKind.CheckFailure`. -/
def unpackMapValueMembers (d : Dwarvifier) (probe : PhysProbe)
    (struct_decl : PhysStruct) (map_var_name : String) (i : Nat) :
    List String → Except Err (Dwarvifier × PhysProbe)
  | [] => .ok (d, probe)
  | value_id :: rest =>
    match struct_decl.fields.get? i with
    | none => .error ⟨.CheckFailure, "repeated field index out of range"⟩
    | some field =>
      let probe :=
        { probe with
          vars := probe.vars
            ++ [.memberVar value_id field.type map_var_name true field.name] }
      let d :=
        { d with scalar_var_types_ := (value_id, field.type) :: d.scalar_var_types_ }
      unpackMapValueMembers d probe struct_decl map_var_name (i + 1) rest

/-- `Dwarvifier::ProcessMapVal`: resolve the map and its registered value
struct, emit a `<map>_ptr` MapLookup variable keyed by the resolved
builtin, then unpack each requested value id as a Member variable. -/
def ProcessMapVal (d : Dwarvifier) (probe : PhysProbe) (map_val : MapValue) :
    Except Err (Dwarvifier × PhysProbe) :=
  match alookup map_val.map_name d.maps_ with
  | none =>
      .error ⟨.Internal,
        "ProcessMapVal: Reference to undeclared map: " ++ map_val.map_name⟩
  | some map =>
    let struct_type_name := StructTypeName map_val.map_name
    match alookup struct_type_name d.structs_ with
    | none =>
        .error ⟨.Internal,
          "ProcessMapVal: Reference to undeclared struct: " ++ struct_type_name⟩
    | some struct_decl =>
      let map_var_name := map_val.map_name ++ "_ptr"
      match BPFHelperVariableName map_val.key with
      | .error e => .error e
      | .ok key_var_name =>
        let probe :=
          { probe with
            vars := probe.vars
              ++ [.mapVar map_var_name (map.value_type.getD "")
                    map_val.map_name key_var_name] }
        unpackMapValueMembers d probe struct_decl map_var_name 0 map_val.value_ids

/-- `Dwarvifier::ProcessFunctionLatency`: emit a BinaryExpr variable
`id = time_ - start_ktime_ns` of type INT64 and record it in the symbol
table. -/
def ProcessFunctionLatency (d : Dwarvifier) (probe : PhysProbe) (id : String) :
    Dwarvifier × PhysProbe :=
  ({ d with scalar_var_types_ := (id, .INT64) :: d.scalar_var_types_ },
   { probe with
     vars := probe.vars
       ++ [.scalar id .INT64 (.binary "SUB" kKTimeVarName kStartKTimeNSVarName)] })

/-- Field construction loop of `Dwarvifier::GenerateMapValueStruct`: one
struct field per source variable id, typed from the per-probe symbol
table; an unknown id is an `error::Internal` (unknown variable). -/
def buildValueFields (scalar_var_types : List (String × ScalarType))
    (map_name : String) : List String → Except Err (List StructField)
  | [] => .ok []
  | f :: rest =>
    match alookup f scalar_var_types with
    | none =>
        .error ⟨.Internal,
          "GenerateMapValueStruct map " ++ map_name
          ++ ": Reference to unknown variable: " ++ f⟩
    | some t =>
      match buildValueFields scalar_var_types map_name rest with
      | .error e => .error e
      | .ok fields => .ok (⟨f, t⟩ :: fields)

/-- `Dwarvifier::GenerateMapValueStruct`: build the `<map>_value_t` struct
from the source variable ids of the stash and register it.  The source carries
a TODO noting that an already-existing struct is NOT checked for
consistency: the registry entry is overwritten unconditionally. -/
def GenerateMapValueStruct (d : Dwarvifier) (stash : MapStashAction)
    (struct_type_name : String) : Except Err Dwarvifier :=
  match buildValueFields d.scalar_var_types_ stash.map_name
      stash.value_variable_name with
  | .error e => .error e
  | .ok fields =>
    let struct_decl : PhysStruct := ⟨struct_type_name, fields⟩
    .ok { d with
          prog_structs := d.prog_structs ++ [struct_decl],
          structs_ := (struct_type_name, struct_decl) :: d.structs_ }

/-- `PopulateMapTypes`: set the key type of the map to UINT64 and its value
type to the given struct name.  The source carries a TODO noting that
already-set values are NOT checked for consistency: both fields are
overwritten unconditionally. -/
def PopulateMapTypes (maps : List (String × MapDecl)) (map_name : String)
    (struct_type_name : String) : Except Err (List (String × MapDecl)) :=
  match alookup map_name maps with
  | none => .error ⟨.Internal, "Reference to undeclared map: " ++ map_name⟩
  | some m =>
      .ok (aset map_name
        { m with key_type := some .UINT64, value_type := some struct_type_name }
        maps)

/-- `Dwarvifier::ProcessStashAction`: generate and register the value
struct, populate the key and value types of the map, emit a Struct variable `<map>_value`
with identity field assignments, and append the physical stash action. -/
def ProcessStashAction (d : Dwarvifier) (probe : PhysProbe)
    (stash : MapStashAction) : Except Err (Dwarvifier × PhysProbe) :=
  let variable_name := stash.map_name ++ "_value"
  let struct_type_name := StructTypeName stash.map_name
  match GenerateMapValueStruct d stash struct_type_name with
  | .error e => .error e
  | .ok d =>
    match PopulateMapTypes d.maps_ stash.map_name struct_type_name with
    | .error e => .error e
    | .ok maps =>
      let d := { d with maps_ := maps }
      let probe : PhysProbe :=
        { probe with
          vars := probe.vars
            ++ [.structVar variable_name struct_type_name
                  (stash.value_variable_name.map (fun f => (f, f)))] }
      match BPFHelperVariableName stash.key with
      | .error e => .error e
      | .ok key_var_name =>
        .ok (d,
          { probe with
            map_stash_actions := probe.map_stash_actions
              ++ [⟨stash.map_name, key_var_name, variable_name⟩] })

/-- `Dwarvifier::ProcessDeleteAction`: resolve the builtin key and append
the physical delete action. -/
def ProcessDeleteAction (d : Dwarvifier) (probe : PhysProbe)
    (delete_action : MapDeleteAction) : Except Err (Dwarvifier × PhysProbe) :=
  match BPFHelperVariableName delete_action.key with
  | .error e => .error e
  | .ok key_var_name =>
    .ok (d,
      { probe with
        map_delete_actions := probe.map_delete_actions
          ++ [⟨delete_action.map_name, key_var_name⟩] })

/-- Field construction loop of `Dwarvifier::GenerateOutputStruct`: each
pair is `(struct field name, source variable name)`; the type comes from
the symbol-table entry of the source variable. -/
def buildOutputFields (scalar_var_types : List (String × ScalarType))
    (output_name : String) :
    List (String × String) → Except Err (List StructField)
  | [] => .ok []
  | (field_name, var_name) :: rest =>
    match alookup var_name scalar_var_types with
    | none =>
        .error ⟨.Internal,
          "GenerateOutputStruct output " ++ output_name
          ++ ": Reference to unknown variable " ++ var_name⟩
    | some t =>
      match buildOutputFields scalar_var_types output_name rest with
      | .error e => .error e
      | .ok fields => .ok (⟨field_name, t⟩ :: fields)

/-- `Dwarvifier::GenerateOutputStruct`: the fields of the struct are the
implicit columns first (field name = variable name), then one field per
declared output field, typed from the corresponding source variable; the
variable count of the action must equal the declared field count of the output. -/
def GenerateOutputStruct (d : Dwarvifier) (act : OutputAction)
    (struct_type_name : String) : Except Err Dwarvifier :=
  match buildOutputFields d.scalar_var_types_ act.output_name
      (d.implicit_columns_.map (fun f => (f, f))) with
  | .error e => .error e
  | .ok implicit_fields =>
    match alookup act.output_name d.outputs_ with
    | none =>
        .error ⟨.InvalidArgument, "Output was not defined: " ++ act.output_name⟩
    | some output =>
      if output.fields.length ≠ act.variable_name.length then
        .error ⟨.InvalidArgument,
          "OutputAction variable count does not match Output field count: "
          ++ act.output_name⟩
      else
        match buildOutputFields d.scalar_var_types_ act.output_name
            (output.fields.zip act.variable_name) with
        | .error e => .error e
        | .ok user_fields =>
          let struct_decl : PhysStruct :=
            ⟨struct_type_name, implicit_fields ++ user_fields⟩
          .ok { d with
                prog_structs := d.prog_structs ++ [struct_decl],
                structs_ := (struct_type_name, struct_decl) :: d.structs_ }

/-- `PopulateOutputTypes`: set the struct type of the output; a different
already-set struct type is an `error::InvalidArgument`. -/
def PopulateOutputTypes (outputs : List (String × PerfBufferOutput))
    (output_name : String) (struct_type_name : String) :
    Except Err (List (String × PerfBufferOutput)) :=
  match alookup output_name outputs with
  | none => .error ⟨.Internal, "Reference to undeclared map: " ++ output_name⟩
  | some output =>
    if output.struct_type ≠ "" ∧ output.struct_type ≠ struct_type_name then
      .error ⟨.InvalidArgument, "Output has wrong output type: " ++ output_name⟩
    else
      .ok (aset output_name { output with struct_type := struct_type_name } outputs)

/-- The field-assignment loop of `Dwarvifier::ProcessOutputAction`: a
single running index walks the fields of the generated struct while the source
names are the implicit columns followed by the variables of the action.  An
out-of-range index would be a protobuf bounds-check abort in the source;
it is unreachable because the struct was generated with exactly these
sources, and is modelled by the `""` fallback. -/
def fieldAssignsFrom (sfields : List StructField) (i : Nat) :
    List String → List (String × String)
  | [] => []
  | v :: vs =>
      (((sfields.get? i).map StructField.name).getD "", v)
        :: fieldAssignsFrom sfields (i + 1) vs

/-- `Dwarvifier::ProcessOutputAction`: generate the output struct, set the
struct type of the output, emit a Struct variable `<output>_value` assigning
the implicit columns first and then the user variables, and append the
physical output action.  The source reads the generated struct back as the
last element of the struct list of the program. -/
def ProcessOutputAction (d : Dwarvifier) (probe : PhysProbe)
    (act : OutputAction) : Except Err (Dwarvifier × PhysProbe) :=
  let variable_name := act.output_name ++ "_value"
  let struct_type_name := StructTypeName act.output_name
  match GenerateOutputStruct d act struct_type_name with
  | .error e => .error e
  | .ok d =>
    match PopulateOutputTypes d.outputs_ act.output_name struct_type_name with
    | .error e => .error e
    | .ok outputs =>
      let d := { d with outputs_ := outputs }
      match d.prog_structs.getLast? with
      | none => .error ⟨.CheckFailure, "no generated struct"⟩
      | some output_struct =>
        let fas :=
          fieldAssignsFrom output_struct.fields 0
            (d.implicit_columns_ ++ act.variable_name)
        let probe : PhysProbe :=
          { probe with
            vars := probe.vars ++ [.structVar variable_name struct_type_name fas] }
        .ok (d,
          { probe with
            output_actions := probe.output_actions
              ++ [⟨act.output_name, variable_name⟩] })

/-! ## Probe assembly -/

/-- Fail-fast left fold of a processing step over a list of actions
(models the `for` loops with `PL_RETURN_IF_ERROR` in
`Dwarvifier::ProcessProbe`). -/
def foldProcess {α : Type}
    (f : Dwarvifier → PhysProbe → α → Except Err (Dwarvifier × PhysProbe)) :
    Dwarvifier → PhysProbe → List α → Except Err (Dwarvifier × PhysProbe)
  | d, probe, [] => .ok (d, probe)
  | d, probe, x :: xs =>
    match f d probe x with
    | .error e => .error e
    | .ok (d, probe) => foldProcess f d probe xs

/-- The `IsFunctionLatecySpecified` guard of `Dwarvifier::ProcessProbe`:
run `ProcessFunctionLatency` when a latency id is present (it always
returns Status OK in the source, so the error arm is unreachable and kept
only for the uniform fail-fast shape). -/
def ProcessFunctionLatencyStep (d : Dwarvifier) (p : PhysProbe) :
    Option String → Except Err (Dwarvifier × PhysProbe)
  | none => .ok (d, p)
  | some id => .ok (ProcessFunctionLatency d p id)

/-- `Dwarvifier::ProcessProbe`: create the output probe (name and
tracepoint copied from the input), add the special variables, then process
constants, argument expressions, return-value expressions, map values,
the optional function latency, stash actions, delete actions, and output
actions, in that order. -/
def ProcessProbe (d : Dwarvifier) (lp : LogicalProbe) :
    Except Err (Dwarvifier × PhysProbe) :=
  let p0 : PhysProbe :=
    { name := lp.name, tp_type := lp.tp_type, vars := [],
      map_stash_actions := [], map_delete_actions := [], output_actions := [] }
  let dp1 := AddSpecialVariables d p0
  match foldProcess (fun d p c => .ok (ProcessConstants d p c)) dp1.1 dp1.2
      lp.consts with
  | .error e => .error e
  | .ok (d, p) =>
    match foldProcess ProcessArgExpr d p lp.args with
    | .error e => .error e
    | .ok (d, p) =>
      match foldProcess ProcessRetValExpr d p lp.ret_vals with
      | .error e => .error e
      | .ok (d, p) =>
        match foldProcess ProcessMapVal d p lp.map_vals with
        | .error e => .error e
        | .ok (d, p) =>
          match ProcessFunctionLatencyStep d p lp.function_latency with
          | .error e => .error e
          | .ok (d, p) =>
            match foldProcess ProcessStashAction d p lp.map_stash_actions with
            | .error e => .error e
            | .ok (d, p) =>
              match foldProcess ProcessDeleteAction d p lp.map_delete_actions with
              | .error e => .error e
              | .ok (d, p) =>
                foldProcess ProcessOutputAction d p lp.output_actions

/-! ## Concrete fixtures used by witnesses and counterexamples -/

/-- A Go-language Dwarvifier state: argument `a` is a base `int` at DWARF
offset 4; argument `x` is a pointer to struct `S1` at offset 16; `S1.y` is
a pointer to struct `S2` at member offset 8; `S2.z` is a base `int64` at
member offset 12. -/
def goDw : Dwarvifier :=
  { language_ := .GOLANG,
    implicit_columns_ :=
      [kTGIDVarName, kTGIDStartTimeVarName, kKTimeVarName, kGOIDVarName],
    args_map_ := [("a", ⟨.kBaseType, "int", 4⟩), ("x", ⟨.kPointer, "S1", 16⟩)],
    retval_info_ := ⟨.kVoid, ""⟩,
    struct_members :=
      [(("S1", "y"), ⟨.kPointer, "S2", 8⟩), (("S2", "z"), ⟨.kBaseType, "int64", 12⟩)],
    scalar_var_types_ := [],
    structs_ := [],
    maps_ := [("M", ⟨"M", none, none⟩)],
    outputs_ := [("out", ⟨"out", ["f1"], ""⟩)],
    prog_structs := [] }

/-- A C-language Dwarvifier state whose traced function returns a base
`int`. -/
def cDw : Dwarvifier :=
  { language_ := .C,
    implicit_columns_ := [kTGIDVarName, kTGIDStartTimeVarName, kKTimeVarName],
    args_map_ := [],
    retval_info_ := ⟨.kBaseType, "int"⟩,
    struct_members := [],
    scalar_var_types_ := [],
    structs_ := [],
    maps_ := [],
    outputs_ := [],
    prog_structs := [] }

/-- An empty physical probe on an entry tracepoint. -/
def emptyProbe : PhysProbe :=
  { name := "p0", tp_type := .ENTRY, vars := [], map_stash_actions := [],
    map_delete_actions := [], output_actions := [] }

/-! ## Claim theorems -/

/-- C1: for a Go argument expression that is a single component naming a
base-typed argument `a` (user id `A`), lowering emits exactly one Memory
leaf variable named `A`, based at `sp_`, whose byte offset is the fixed
stack-pointer bias 8 plus the DWARF-reported offset of `a`, typed from the
Go base-type table. -/
theorem C1_go_base_argument (d : Dwarvifier) (probe : PhysProbe)
    (A a gname : String) (off : Int) (τ : ScalarType)
    (hlang : d.language_ = .GOLANG)
    (hne : a ≠ "")
    (hsplit : StrSplitDot a = [a])
    (harg : alookup a d.args_map_ = some ⟨.kBaseType, gname, off⟩)
    (hτ : alookup gname kGoTypesMap = some τ) :
    ProcessArgExpr d probe ⟨A, a⟩ =
      .ok ({ d with scalar_var_types_ := (A, τ) :: d.scalar_var_types_ },
           { probe with
             vars := probe.vars ++ [.scalar A τ (.memory kSPVarName (8 + off))] }) := by
  obtain ⟨lang, ic, am, rv, sm, svt, sts, mps, outs, ps⟩ := d
  subst hlang
  simp [ProcessArgExpr, hne, hsplit, GetArgInfo, harg,
    ProcessVarExpr, ProcessVarExprLoop, VarTypeToProtoScalarType,
    GetTypesMap, hτ, AddVariable, kSPOffset, kSPVarName]

/-- Witness for C1: in the concrete Go state `goDw`, lowering argument
expression `a` with id `A` emits the single leaf `A : INT` at
`(sp_, 8 + 4)`. -/
theorem C1_go_base_argument_witness :
    ProcessArgExpr goDw emptyProbe ⟨"A", "a"⟩ =
      .ok ({ goDw with scalar_var_types_ := [("A", .INT)] },
           { emptyProbe with
             vars := [.scalar "A" .INT (.memory kSPVarName (8 + 4))] }) := by
  have h := C1_go_base_argument goDw emptyProbe "A" "a" "int" 4 .INT rfl
    (by decide) (by decide) (by decide) (by decide)
  simpa using h

/-- The names of the variables in the probe a lowering step returned
(empty on error); used to inspect emitted variable sequences. -/
def emittedVarNames (r : Except Err (Dwarvifier × PhysProbe)) : List String :=
  match r with
  | .ok (_, p) => p.vars.map PhysVar.varName
  | .error _ => []

/-- The mapper sends every pointer kind to `VOID_POINTER` (helper). -/
theorem varTypeToProtoScalarType_pointer (lang : Language) (name : String) :
    VarTypeToProtoScalarType lang .kPointer name = .ok .VOID_POINTER := rfl

/-- Counterexample to C2: lowering the Go argument expression `x.y.z` with
caller-supplied id `K` (pointer `x` to struct `S1`, pointer field `y` to
struct `S2`, base field `z`) emits the variables `K_X_`, `K_X__D_y_X_`,
`K` — the intermediates are decorated from the caller-supplied id, not
from the root name `x`, and no variable named with the bare `_D_y` suffix
is ever emitted (that string occurs only as internal naming state). -/
theorem C2_root_named_intermediates_refuted :
    emittedVarNames (ProcessArgExpr goDw emptyProbe ⟨"K", "x.y.z"⟩) =
      ["K_X_", "K_X__D_y_X_", "K"]
    ∧ emittedVarNames (ProcessArgExpr goDw emptyProbe ⟨"K", "x.y.z"⟩) ≠
      ["x_X_", "x_X__D_y", "x_X__D_y_X_", "K"] := by decide

/-- C2 (amended): for an argument expression `x.y.z` where `x` is a
pointer to a struct with pointer field `y` to a struct with base field
`z`, and the caller-supplied id is `A`, lowering emits exactly the
dereference intermediate `A_X_` (Memory at `(sp_, 8 + offset(x))`), the
dereference intermediate `A_X__D_y_X_` (Memory at `(A_X_, offset(y))`),
and the leaf named `A` (Memory at `(A_X__D_y_X_, offset(z))`). -/
theorem C2_names_decorated_from_id (d : Dwarvifier) (probe : PhysProbe)
    (A S1 S2 bt : String) (offx offy offz : Int) (τ : ScalarType)
    (harg : alookup "x" d.args_map_ = some ⟨.kPointer, S1, offx⟩)
    (hy : alookup (S1, "y") d.struct_members = some ⟨.kPointer, S2, offy⟩)
    (hz : alookup (S2, "z") d.struct_members = some ⟨.kBaseType, bt, offz⟩)
    (hτ : VarTypeToProtoScalarType d.language_ .kBaseType bt = .ok τ) :
    ProcessArgExpr d probe ⟨A, "x.y.z"⟩ =
      .ok ({ d with scalar_var_types_ :=
               (A, τ)
                 :: (A ++ "_X_" ++ "_D_" ++ "y" ++ "_X_", .VOID_POINTER)
                 :: (A ++ "_X_", .VOID_POINTER)
                 :: d.scalar_var_types_ },
           { probe with vars := probe.vars ++
               [.scalar (A ++ "_X_") .VOID_POINTER (.memory kSPVarName (8 + offx)),
                .scalar (A ++ "_X_" ++ "_D_" ++ "y" ++ "_X_") .VOID_POINTER
                  (.memory (A ++ "_X_") offy),
                .scalar A τ (.memory (A ++ "_X_" ++ "_D_" ++ "y" ++ "_X_") offz)] }) := by
  have hs : StrSplitDot "x.y.z" = ["x", "y", "z"] := by decide
  have hne : ¬ ("x.y.z" = "") := by decide
  simp [ProcessArgExpr, hne, hs, GetArgInfo, harg, ProcessVarExpr,
    ProcessVarExprLoop, GetStructMemberInfo, hy, hz, hτ,
    varTypeToProtoScalarType_pointer, AddVariable, kSPOffset, kSPVarName,
    kDotStr, kDerefStr]

/-- Witness for the amended C2 at the concrete Go state `goDw` with id
`K`: the three emitted variables and their memory recipes. -/
theorem C2_names_decorated_from_id_witness :
    ProcessArgExpr goDw emptyProbe ⟨"K", "x.y.z"⟩ =
      .ok ({ goDw with scalar_var_types_ :=
               [("K", .INT64), ("K_X__D_y_X_", .VOID_POINTER),
                ("K_X_", .VOID_POINTER)] },
           { emptyProbe with vars :=
               [.scalar "K_X_" .VOID_POINTER (.memory kSPVarName 24),
                .scalar "K_X__D_y_X_" .VOID_POINTER (.memory "K_X_" 8),
                .scalar "K" .INT64 (.memory "K_X__D_y_X_" 12)] }) := by
  have h := C2_names_decorated_from_id goDw emptyProbe "K" "S1" "S2" "int64"
    16 8 12 .INT64 (by decide) (by decide) (by decide) rfl
  simpa using h

/-- C4: for a C or C++ return-value expression whose first component
parses to index `idx`: any `idx ≠ 0` is rejected with an error; with
`idx = 0` and a base-kind DWARF return, exactly one Register variable on
the return register RC, typed by the type mapper and named with the user
id, is emitted; with a pointer-kind return, lowering proceeds through
`ProcessVarExpr` rooted at `rc_` with an ArgInfo offset of 0; with a void
return, an error is returned. -/
theorem C4_c_cpp_retval (d : Dwarvifier) (probe : PhysProbe)
    (rv : ReturnValue) (idx : Int)
    (hlang : d.language_ = .C ∨ d.language_ = .CPP)
    (hne : rv.expr ≠ "")
    (hidx : SimpleAtoi (strDropOne ((StrSplitDot rv.expr).headD "")) = some idx) :
    (idx ≠ 0 → ∃ e, ProcessRetValExpr d probe rv = .error e)
    ∧ (∀ tn τ, idx = 0 → d.retval_info_ = ⟨.kBaseType, tn⟩ →
        VarTypeToProtoScalarType d.language_ .kBaseType tn = .ok τ →
        ProcessRetValExpr d probe rv =
          .ok (AddVariable d probe rv.id τ (.reg .RC)))
    ∧ (∀ tn, idx = 0 → d.retval_info_ = ⟨.kPointer, tn⟩ →
        ProcessRetValExpr d probe rv =
          ProcessVarExpr d probe rv.id ⟨.kPointer, tn, 0⟩ kRCVarName
            (StrSplitDot rv.expr))
    ∧ (idx = 0 → d.retval_info_.type = .kVoid →
        ∃ e, ProcessRetValExpr d probe rv = .error e) := by
  simp only [List.headD_eq_head?_getD] at hidx
  have hfront : ¬((StrSplitDot rv.expr).head?.getD "" = "") := by
    intro hh
    rw [hh, show SimpleAtoi (strDropOne "") = none from rfl] at hidx
    exact Option.noConfusion hidx
  refine ⟨?_, ?_, ?_, ?_⟩
  · intro hnz
    rcases hlang with h | h <;>
      exact ⟨⟨.Internal, "C and C++ only support a single return value"⟩,
        by simp [ProcessRetValExpr, hne, SubstrOne, hfront, hidx, h, hnz]⟩
  · intro tn τ hz hrv hτ
    subst hz
    rcases hlang with h | h <;>
      · rw [h] at hτ
        simp [ProcessRetValExpr, hne, SubstrOne, hfront, hidx, h, hrv, hτ]
  · intro tn hz hrv
    subst hz
    rcases hlang with h | h <;>
      simp [ProcessRetValExpr, hne, SubstrOne, hfront, hidx, h, hrv]
  · intro hz hrv
    subst hz
    rcases hlang with h | h <;>
      exact ⟨⟨.Internal,
          "Attempting to process return variable for function with void return"⟩,
        by simp [ProcessRetValExpr, hne, SubstrOne, hfront, hidx, h, hrv]⟩

/-- Witness for C4 at the concrete C state `cDw` (base `int` return):
lowering `$0` with id `R` emits the single Register variable `R : INT`
bound to RC. -/
theorem C4_c_cpp_retval_witness :
    ProcessRetValExpr cDw emptyProbe ⟨"R", "$0"⟩ =
      .ok ({ cDw with scalar_var_types_ := [("R", .INT)] },
           { emptyProbe with vars := [.scalar "R" .INT (.reg .RC)] }) := by
  have h := (C4_c_cpp_retval cDw emptyProbe ⟨"R", "$0"⟩ 0 (Or.inl rfl)
    (by decide) (by decide)).2.1 "int" .INT rfl rfl rfl
  simpa [AddVariable] using h

/-- Counterexample to C9: the first component of a return-value expression
is never checked to start with `$`; only its tail after dropping one
character must parse as an integer.  The malformed first component `x0`
(for a C probe with a base `int` return) is accepted and lowers to the
Register leaf, instead of being rejected with InvalidArgument. -/
theorem C9_dollar_form_not_checked :
    ProcessRetValExpr cDw emptyProbe ⟨"R", "x0"⟩ =
      .ok ({ cDw with scalar_var_types_ := [("R", .INT)] },
           { emptyProbe with vars := [.scalar "R" .INT (.reg .RC)] }) := by decide

/-- C9 (amended): the leading character of the first dot-separated
component of a return-value expression is never inspected.  When the
first component is nonempty, the expression is rejected with
`InvalidArgument` when the remainder after dropping that first character
fails to parse as an integer; when the first component is empty (e.g.
expression `.5`), `substr(1)` has `pos > size()` and throws
`std::out_of_range`, an uncaught exception that terminates the pass
abnormally instead of returning a Status. -/
theorem C9_retval_malformed_index (d : Dwarvifier) (probe : PhysProbe)
    (rv : ReturnValue)
    (hne : rv.expr ≠ "") :
    ((StrSplitDot rv.expr).headD "" ≠ "" →
      SimpleAtoi (strDropOne ((StrSplitDot rv.expr).headD "")) = none →
      ProcessRetValExpr d probe rv =
        .error ⟨.InvalidArgument,
          "ReturnValue expression invalid, first component must be dollar-index: "
          ++ rv.expr⟩)
    ∧ ((StrSplitDot rv.expr).headD "" = "" →
      ProcessRetValExpr d probe rv =
        .error ⟨.UncaughtException, "substr pos out of range"⟩) := by
  constructor
  · intro hfront hparse
    simp only [List.headD_eq_head?_getD] at hfront hparse
    simp [ProcessRetValExpr, hne, SubstrOne, hfront, hparse]
  · intro hfront
    simp only [List.headD_eq_head?_getD] at hfront
    simp [ProcessRetValExpr, hne, SubstrOne, hfront]

/-- Witness for the amended C9: `$x` has a nonempty first component whose
tail is not an integer and is rejected with the InvalidArgument parse
error, while `.5` has an empty first component and hits the uncaught
`std::out_of_range` from `substr(1)`. -/
theorem C9_retval_malformed_index_witness :
    ProcessRetValExpr cDw emptyProbe ⟨"R", "$x"⟩ =
      .error ⟨.InvalidArgument,
        "ReturnValue expression invalid, first component must be dollar-index: "
        ++ "$x"⟩
    ∧ ProcessRetValExpr cDw emptyProbe ⟨"R", ".5"⟩ =
      .error ⟨.UncaughtException, "substr pos out of range"⟩ :=
  ⟨(C9_retval_malformed_index cDw emptyProbe ⟨"R", "$x"⟩ (by decide)).1
      (by decide) (by decide),
   (C9_retval_malformed_index cDw emptyProbe ⟨"R", ".5"⟩ (by decide)).2
      (by decide)⟩

/-! ## Append-only structure of probe variable emission (for C5) -/

/-- The exact sequence of special variables `AddSpecialVariables` emits,
as a function of language and tracepoint type. -/
def specialVarsList (language : Language) (tp : TracePointType) : List PhysVar :=
  [.scalar kSPVarName .VOID_POINTER (.reg .SP),
   .scalar kTGIDVarName .INT32 (.builtin .TGID),
   .scalar kTGIDPIDVarName .UINT64 (.builtin .TGID_PID),
   .scalar kTGIDStartTimeVarName .UINT64 (.builtin .TGID_START_TIME),
   .scalar kKTimeVarName .UINT64 (.builtin .KTIME)]
  ++ (if language = .GOLANG then [.scalar kGOIDVarName .INT64 (.builtin .GOID)]
      else [])
  ++ (if tp = .RETURN ∧ (language = .C ∨ language = .CPP) then
        [.scalar kRCVarName .VOID_POINTER (.reg .RC)]
      else [])

/-- `AddSpecialVariables` appends exactly `specialVarsList` to the variable
list of the probe and does not change the probe name or tracepoint type. -/
theorem addSpecialVariables_vars (d : Dwarvifier) (p : PhysProbe) :
    (AddSpecialVariables d p).2.vars
      = p.vars ++ specialVarsList d.language_ p.tp_type := by
  cases hl : d.language_ <;> cases ht : p.tp_type <;>
    simp [AddSpecialVariables, AddStandardVariables, AddRetProbeVariables,
      AddVariable, specialVarsList, hl, ht]


/-- `ProcessVarExprLoop` only appends to the probe variable list. -/
theorem processVarExprLoop_extends (comps : List String) :
    ∀ (d : Dwarvifier) (probe : PhysProbe) (es : ExprState)
      (d' : Dwarvifier) (probe' : PhysProbe) (es' : ExprState),
      ProcessVarExprLoop d probe es comps = .ok (d', probe', es') →
      ∃ t, probe'.vars = probe.vars ++ t := by
  induction comps with
  | nil =>
    intro d probe es d' probe' es' h
    simp only [ProcessVarExprLoop, Except.ok.injEq, Prod.mk.injEq] at h
    obtain ⟨-, h2, -⟩ := h
    exact ⟨[], by rw [← h2]; simp⟩
  | cons c rest ih =>
    intro d probe es d' probe' es' h
    simp only [ProcessVarExprLoop] at h
    split at h
    · exact Except.noConfusion h
    · rename_i d1 p1 es1 heq
      split at h
      · exact Except.noConfusion h
      · rename_i mi hmi
        obtain ⟨t, ht⟩ := ih _ _ _ _ _ _ h
        have hp1 : ∃ u, p1.vars = probe.vars ++ u := by
          split at heq
          · split at heq
            · exact Except.noConfusion heq
            · simp only [Except.ok.injEq, Prod.mk.injEq] at heq
              obtain ⟨-, h2, -⟩ := heq
              exact ⟨_, by rw [← h2]; rfl⟩
          · simp only [Except.ok.injEq, Prod.mk.injEq] at heq
            obtain ⟨-, h2, -⟩ := heq
            exact ⟨[], by rw [← h2]; simp⟩
        obtain ⟨u, hu⟩ := hp1
        exact ⟨u ++ t, by rw [ht, hu, List.append_assoc]⟩

/-- `ProcessVarExpr` only appends to the probe variable list. -/
theorem processVarExpr_extends (d : Dwarvifier) (probe : PhysProbe)
    (var_name : String) (arg_info : ArgInfo) (base_var : String)
    (components : List String) (d' : Dwarvifier) (probe' : PhysProbe)
    (h : ProcessVarExpr d probe var_name arg_info base_var components
      = .ok (d', probe')) :
    ∃ t, probe'.vars = probe.vars ++ t := by
  simp only [ProcessVarExpr] at h
  split at h
  · exact Except.noConfusion h
  · rename_i d1 p1 es1 hloop
    obtain ⟨t1, ht1⟩ := processVarExprLoop_extends _ _ _ _ _ _ _ hloop
    split at h
    · exact Except.noConfusion h
    · rename_i d2 p2 es2 hstep
      have hp2 : ∃ u, p2.vars = p1.vars ++ u := by
        split at hstep
        · split at hstep
          · exact Except.noConfusion hstep
          · simp only [Except.ok.injEq, Prod.mk.injEq] at hstep
            obtain ⟨-, h2, -⟩ := hstep
            exact ⟨_, by rw [← h2]; rfl⟩
        · simp only [Except.ok.injEq, Prod.mk.injEq] at hstep
          obtain ⟨-, h2, -⟩ := hstep
          exact ⟨[], by rw [← h2]; simp⟩
      obtain ⟨u, hu⟩ := hp2
      split at h
      · exact Except.noConfusion h
      · rename_i pb hpb
        simp only [Except.ok.injEq] at h
        have h2 := congrArg Prod.snd h
        simp only at h2
        refine ⟨t1 ++ u ++ [.scalar var_name pb (.memory es2.base es2.offset)], ?_⟩
        rw [← h2]
        simp [AddVariable, hu, ht1]

/-- `ProcessArgExpr` only appends to the probe variable list. -/
theorem processArgExpr_extends (d : Dwarvifier) (probe : PhysProbe)
    (arg : Argument) (d' : Dwarvifier) (probe' : PhysProbe)
    (h : ProcessArgExpr d probe arg = .ok (d', probe')) :
    ∃ t, probe'.vars = probe.vars ++ t := by
  simp only [ProcessArgExpr] at h
  split at h
  · exact Except.noConfusion h
  · split at h
    · exact Except.noConfusion h
    · exact processVarExpr_extends _ _ _ _ _ _ _ _ h

/-- `ProcessRetValExpr` only appends to the probe variable list. -/
theorem processRetValExpr_extends (d : Dwarvifier) (probe : PhysProbe)
    (rv : ReturnValue) (d' : Dwarvifier) (probe' : PhysProbe)
    (h : ProcessRetValExpr d probe rv = .ok (d', probe')) :
    ∃ t, probe'.vars = probe.vars ++ t := by
  simp only [ProcessRetValExpr] at h
  split at h
  · exact Except.noConfusion h
  · split at h
    · exact Except.noConfusion h
    · split at h
      · exact Except.noConfusion h
      · split at h
        · split at h
          · exact Except.noConfusion h
          · exact processVarExpr_extends _ _ _ _ _ _ _ _ h
        · split at h
          · exact Except.noConfusion h
          · split at h
            · split at h
              · exact Except.noConfusion h
              · simp only [Except.ok.injEq] at h
                have h2 := congrArg Prod.snd h
                simp only at h2
                exact ⟨_, by rw [← h2]; rfl⟩
            · exact processVarExpr_extends _ _ _ _ _ _ _ _ h
            · exact Except.noConfusion h
            · exact Except.noConfusion h
        · split at h
          · exact Except.noConfusion h
          · split at h
            · split at h
              · exact Except.noConfusion h
              · simp only [Except.ok.injEq] at h
                have h2 := congrArg Prod.snd h
                simp only at h2
                exact ⟨_, by rw [← h2]; rfl⟩
            · exact processVarExpr_extends _ _ _ _ _ _ _ _ h
            · exact Except.noConfusion h
            · exact Except.noConfusion h
        · exact Except.noConfusion h

/-- `unpackMapValueMembers` only appends to the probe variable list. -/
theorem unpackMapValueMembers_extends (ids : List String) :
    ∀ (d : Dwarvifier) (probe : PhysProbe) (sd : PhysStruct) (mv : String)
      (i : Nat) (d' : Dwarvifier) (probe' : PhysProbe),
      unpackMapValueMembers d probe sd mv i ids = .ok (d', probe') →
      ∃ t, probe'.vars = probe.vars ++ t := by
  induction ids with
  | nil =>
    intro d probe sd mv i d' probe' h
    simp only [unpackMapValueMembers, Except.ok.injEq, Prod.mk.injEq] at h
    obtain ⟨-, h2⟩ := h
    exact ⟨[], by rw [← h2]; simp⟩
  | cons x rest ih =>
    intro d probe sd mv i d' probe' h
    simp only [unpackMapValueMembers] at h
    split at h
    · exact Except.noConfusion h
    · rename_i fld hfld
      obtain ⟨t, ht⟩ := ih _ _ _ _ _ _ _ h
      exact ⟨.memberVar x fld.type mv true fld.name :: t, by rw [ht]; simp⟩

/-- `ProcessMapVal` only appends to the probe variable list. -/
theorem processMapVal_extends (d : Dwarvifier) (probe : PhysProbe)
    (mv : MapValue) (d' : Dwarvifier) (probe' : PhysProbe)
    (h : ProcessMapVal d probe mv = .ok (d', probe')) :
    ∃ t, probe'.vars = probe.vars ++ t := by
  simp only [ProcessMapVal] at h
  split at h
  · exact Except.noConfusion h
  · rename_i map hmap
    split at h
    · exact Except.noConfusion h
    · rename_i sd hsd
      split at h
      · exact Except.noConfusion h
      · rename_i key hkey
        obtain ⟨t, ht⟩ := unpackMapValueMembers_extends _ _ _ _ _ _ _ _ h
        exact ⟨.mapVar (mv.map_name ++ "_ptr") (map.value_type.getD "")
            mv.map_name key :: t,
          by rw [ht]; simp⟩

/-- `ProcessFunctionLatencyStep` only appends to the probe variable
list. -/
theorem processFunctionLatencyStep_extends (d : Dwarvifier) (p : PhysProbe)
    (o : Option String) (d' : Dwarvifier) (p' : PhysProbe)
    (h : ProcessFunctionLatencyStep d p o = .ok (d', p')) :
    ∃ t, p'.vars = p.vars ++ t := by
  cases o with
  | none =>
    simp only [ProcessFunctionLatencyStep, Except.ok.injEq, Prod.mk.injEq] at h
    obtain ⟨-, h2⟩ := h
    exact ⟨[], by rw [← h2]; simp⟩
  | some id =>
    simp only [ProcessFunctionLatencyStep, Except.ok.injEq] at h
    have h2 := congrArg Prod.snd h
    simp only at h2
    exact ⟨_, by rw [← h2]; rfl⟩

/-- `ProcessStashAction` only appends to the probe variable list. -/
theorem processStashAction_extends (d : Dwarvifier) (probe : PhysProbe)
    (st : MapStashAction) (d' : Dwarvifier) (probe' : PhysProbe)
    (h : ProcessStashAction d probe st = .ok (d', probe')) :
    ∃ t, probe'.vars = probe.vars ++ t := by
  simp only [ProcessStashAction] at h
  split at h
  · exact Except.noConfusion h
  · split at h
    · exact Except.noConfusion h
    · split at h
      · exact Except.noConfusion h
      · simp only [Except.ok.injEq, Prod.mk.injEq] at h
        obtain ⟨-, h2⟩ := h
        exact ⟨_, by rw [← h2]⟩

/-- `ProcessDeleteAction` leaves the probe variable list unchanged. -/
theorem processDeleteAction_extends (d : Dwarvifier) (probe : PhysProbe)
    (da : MapDeleteAction) (d' : Dwarvifier) (probe' : PhysProbe)
    (h : ProcessDeleteAction d probe da = .ok (d', probe')) :
    ∃ t, probe'.vars = probe.vars ++ t := by
  simp only [ProcessDeleteAction] at h
  split at h
  · exact Except.noConfusion h
  · simp only [Except.ok.injEq, Prod.mk.injEq] at h
    obtain ⟨-, h2⟩ := h
    exact ⟨[], by rw [← h2]; simp⟩

/-- `ProcessOutputAction` only appends to the probe variable list. -/
theorem processOutputAction_extends (d : Dwarvifier) (probe : PhysProbe)
    (act : OutputAction) (d' : Dwarvifier) (probe' : PhysProbe)
    (h : ProcessOutputAction d probe act = .ok (d', probe')) :
    ∃ t, probe'.vars = probe.vars ++ t := by
  simp only [ProcessOutputAction] at h
  split at h
  · exact Except.noConfusion h
  · split at h
    · exact Except.noConfusion h
    · split at h
      · exact Except.noConfusion h
      · simp only [Except.ok.injEq, Prod.mk.injEq] at h
        obtain ⟨-, h2⟩ := h
        exact ⟨_, by rw [← h2]⟩

/-- `foldProcess` only appends to the probe variable list, provided each
step does. -/
theorem foldProcess_extends {α : Type}
    (f : Dwarvifier → PhysProbe → α → Except Err (Dwarvifier × PhysProbe))
    (hf : ∀ d p x d' p', f d p x = .ok (d', p') → ∃ t, p'.vars = p.vars ++ t)
    (xs : List α) :
    ∀ (d : Dwarvifier) (p : PhysProbe) (d' : Dwarvifier) (p' : PhysProbe),
      foldProcess f d p xs = .ok (d', p') → ∃ t, p'.vars = p.vars ++ t := by
  induction xs with
  | nil =>
    intro d p d' p' h
    simp only [foldProcess, Except.ok.injEq, Prod.mk.injEq] at h
    obtain ⟨-, h2⟩ := h
    exact ⟨[], by rw [← h2]; simp⟩
  | cons x rest ih =>
    intro d p d' p' h
    simp only [foldProcess] at h
    split at h
    · exact Except.noConfusion h
    · rename_i d1 p1 hstep
      obtain ⟨t1, ht1⟩ := hf _ _ _ _ _ hstep
      obtain ⟨t2, ht2⟩ := ih _ _ _ _ h
      exact ⟨t1 ++ t2, by rw [ht2, ht1, List.append_assoc]⟩

/-- The constant-processing step of `ProcessProbe` only appends. -/
theorem processConstantsStep_extends (d : Dwarvifier) (p : PhysProbe)
    (c : Constant) (d' : Dwarvifier) (p' : PhysProbe)
    (h : (Except.ok (ProcessConstants d p c) :
        Except Err (Dwarvifier × PhysProbe)) = .ok (d', p')) :
    ∃ t, p'.vars = p.vars ++ t := by
  simp only [Except.ok.injEq] at h
  have h2 := congrArg Prod.snd h
  simp only at h2
  exact ⟨_, by rw [← h2]; rfl⟩

/-- C5: every probe generated by `ProcessProbe` begins with the special
variables: `sp_` (Register SP, VOID_POINTER), `tgid_` (Builtin TGID,
INT32), `tgid_pid_` (Builtin TGID_PID, UINT64), `tgid_start_time_`
(Builtin TGID_START_TIME, UINT64), `time_` (Builtin KTIME, UINT64), then
`goid_` (Builtin GOID, INT64) exactly when the language is Go, then `rc_`
(Register RC, VOID_POINTER) exactly when the tracepoint type is return
and the language is C or C++; and `Setup` derives the implicit-columns
list `[tgid_, tgid_start_time_, time_]`, extended with `goid_` for Go. -/
theorem C5_special_variables (d : Dwarvifier) (lp : LogicalProbe)
    (d' : Dwarvifier) (p : PhysProbe)
    (h : ProcessProbe d lp = .ok (d', p)) :
    p.vars.take (specialVarsList d.language_ lp.tp_type).length
      = specialVarsList d.language_ lp.tp_type
    ∧ ∀ (d0 : Dwarvifier) (lang : Language),
        (Dwarvifier.Setup d0 lang).implicit_columns_
          = ["tgid_", "tgid_start_time_", "time_"]
            ++ (if lang = .GOLANG then ["goid_"] else []) := by
  refine ⟨?_, fun d0 lang => by simp [Dwarvifier.Setup, kTGIDVarName,
    kTGIDStartTimeVarName, kKTimeVarName, kGOIDVarName]⟩
  simp only [ProcessProbe] at h
  have hspecial := addSpecialVariables_vars d
    { name := lp.name, tp_type := lp.tp_type, vars := [],
      map_stash_actions := [], map_delete_actions := [], output_actions := [] }
  split at h
  · exact Except.noConfusion h
  · rename_i d1 p1 hconsts
    have h1 : ∃ t, p1.vars = specialVarsList d.language_ lp.tp_type ++ t := by
      obtain ⟨t, ht⟩ := foldProcess_extends _ processConstantsStep_extends
        _ _ _ _ _ hconsts
      refine ⟨t, ?_⟩
      rw [ht, hspecial]
      simp
    split at h
    · exact Except.noConfusion h
    · rename_i d2 p2 hargs
      obtain ⟨t2, ht2⟩ := foldProcess_extends _ processArgExpr_extends _ _ _ _ _ hargs
      split at h
      · exact Except.noConfusion h
      · rename_i d3 p3 hrets
        obtain ⟨t3, ht3⟩ := foldProcess_extends _ processRetValExpr_extends _ _ _ _ _ hrets
        split at h
        · exact Except.noConfusion h
        · rename_i d4 p4 hmvs
          obtain ⟨t4, ht4⟩ := foldProcess_extends _ processMapVal_extends _ _ _ _ _ hmvs
          split at h
          · exact Except.noConfusion h
          · rename_i d5 p5 hlat
            obtain ⟨t5, ht5⟩ := processFunctionLatencyStep_extends _ _ _ _ _ hlat
            split at h
            · exact Except.noConfusion h
            · rename_i d6 p6 hstash
              obtain ⟨t6, ht6⟩ := foldProcess_extends _ processStashAction_extends _ _ _ _ _ hstash
              split at h
              · exact Except.noConfusion h
              · rename_i d7 p7 hdel
                obtain ⟨t7, ht7⟩ := foldProcess_extends _ processDeleteAction_extends _ _ _ _ _ hdel
                obtain ⟨t8, ht8⟩ := foldProcess_extends _ processOutputAction_extends _ _ _ _ _ h
                obtain ⟨t1, ht1⟩ := h1
                rw [ht8, ht7, ht6, ht5, ht4, ht3, ht2, ht1]
                simp only [List.append_assoc]
                exact List.take_left _ _

/-- A logical probe with no constants, expressions, or actions. -/
def lp0 : LogicalProbe :=
  { name := "probe0", tp_type := .ENTRY, consts := [], args := [],
    ret_vals := [], map_vals := [], function_latency := none,
    map_stash_actions := [], map_delete_actions := [], output_actions := [] }

/-- The Dwarvifier state after processing `lp0` from `goDw`. -/
def c5resD : Dwarvifier :=
  { goDw with scalar_var_types_ :=
      [("goid_", .INT64), ("time_", .UINT64), ("tgid_start_time_", .UINT64),
       ("tgid_pid_", .UINT64), ("tgid_", .INT32), ("sp_", .VOID_POINTER)] }

/-- The physical probe generated for `lp0` from `goDw`. -/
def c5resP : PhysProbe :=
  { name := "probe0", tp_type := .ENTRY,
    vars := specialVarsList .GOLANG .ENTRY,
    map_stash_actions := [], map_delete_actions := [], output_actions := [] }

/-- Witness for C5: processing the trivial Go probe `lp0` succeeds and the
generated probe begins with (indeed consists of) the special variables for
Go on an entry tracepoint. -/
theorem C5_special_variables_witness :
    c5resP.vars.take (specialVarsList .GOLANG .ENTRY).length
      = specialVarsList .GOLANG .ENTRY := by
  have h : ProcessProbe goDw lp0 = .ok (c5resD, c5resP) := by decide
  exact (C5_special_variables goDw lp0 c5resD c5resP h).1

/-- On success, `buildOutputFields` produces one field per input pair, with
the field names exactly the first components, in order. -/
theorem buildOutputFields_names (svt : List (String × ScalarType))
    (output_name : String) :
    ∀ (pairs : List (String × String)) (fields : List StructField),
      buildOutputFields svt output_name pairs = .ok fields →
      fields.map StructField.name = pairs.map Prod.fst := by
  intro pairs
  induction pairs with
  | nil =>
    intro fields h
    simp only [buildOutputFields, Except.ok.injEq] at h
    rw [← h]
    simp
  | cons p rest ih =>
    intro fields h
    obtain ⟨fn, vn⟩ := p
    simp only [buildOutputFields] at h
    split at h
    · exact Except.noConfusion h
    · split at h
      · exact Except.noConfusion h
      · rename_i t ht fs hfs
        simp only [Except.ok.injEq] at h
        rw [← h]
        simp [ih fs hfs]

/-- `fieldAssignsFrom` starting at index `i` pairs the struct field names
from position `i` on with the source names, when enough fields exist. -/
theorem fieldAssignsFrom_eq_zip (sfields : List StructField) :
    ∀ (srcs : List String) (i : Nat), i + srcs.length ≤ sfields.length →
      fieldAssignsFrom sfields i srcs
        = ((sfields.drop i).map StructField.name).zip srcs := by
  intro srcs
  induction srcs with
  | nil => intro i h; simp [fieldAssignsFrom]
  | cons v vs ih =>
    intro i h
    simp only [List.length_cons] at h
    have hi : i < sfields.length := by omega
    have hdrop : sfields.drop i = sfields[i] :: sfields.drop (i + 1) :=
      List.drop_eq_getElem_cons hi
    simp only [fieldAssignsFrom, hdrop]
    rw [ih (i + 1) (by omega)]
    simp only [List.get?_eq_getElem?, List.getElem?_eq_getElem hi]
    simp
    have hi2 : i < (List.map StructField.name sfields).length := by simpa using hi
    rw [List.drop_eq_getElem_cons hi2]
    simp


/-- C6: for every output action that succeeds, the generated output
fields of the struct are exactly the implicit column names, in their fixed
order, followed by one field per declared output field; and the emitted
Struct variable assigns those fields from the implicit columns first and
then from the user-supplied source variables, in order. -/
theorem C6_output_struct_layout (d : Dwarvifier) (probe : PhysProbe)
    (act : OutputAction) (out : PerfBufferOutput)
    (d' : Dwarvifier) (p' : PhysProbe)
    (hout : alookup act.output_name d.outputs_ = some out)
    (h : ProcessOutputAction d probe act = .ok (d', p')) :
    d'.prog_structs.map PhysStruct.name
      = d.prog_structs.map PhysStruct.name ++ [StructTypeName act.output_name]
    ∧ (d'.prog_structs.getLastD ⟨"", []⟩).fields.map StructField.name
      = d.implicit_columns_ ++ out.fields
    ∧ p'.vars = probe.vars
      ++ [.structVar (act.output_name ++ "_value") (StructTypeName act.output_name)
            (((d'.prog_structs.getLastD ⟨"", []⟩).fields.map StructField.name).zip
              (d.implicit_columns_ ++ act.variable_name))] := by
  simp only [ProcessOutputAction] at h
  split at h
  · exact Except.noConfusion h
  rename_i d2 hgen
  split at h
  · exact Except.noConfusion h
  rename_i outs hpop
  split at h
  · exact Except.noConfusion h
  rename_i os hos
  simp only [Except.ok.injEq, Prod.mk.injEq] at h
  obtain ⟨hd', hp'⟩ := h
  simp only [GenerateOutputStruct, hout] at hgen
  split at hgen
  · exact Except.noConfusion hgen
  rename_i ifs hifs
  split at hgen
  · exact Except.noConfusion hgen
  rename_i harity
  split at hgen
  · exact Except.noConfusion hgen
  rename_i ufs hufs
  simp only [Except.ok.injEq] at hgen
  have hnames_ifs : ifs.map StructField.name = d.implicit_columns_ := by
    have hn := buildOutputFields_names _ _ _ _ hifs
    rw [hn, List.map_map]
    have hid : (Prod.fst ∘ fun f : String => (f, f)) = id := rfl
    rw [hid, List.map_id]
  have hlen_eq : out.fields.length = act.variable_name.length := by
    by_contra hc
    exact harity hc
  have hnames_ufs : ufs.map StructField.name = out.fields := by
    have hn := buildOutputFields_names _ _ _ _ hufs
    rw [hn]
    exact List.map_fst_zip _ _ (le_of_eq hlen_eq)
  have hlen_ifs : ifs.length = d.implicit_columns_.length := by
    have hn := congrArg List.length hnames_ifs
    simpa using hn
  have hlen_ufs : ufs.length = act.variable_name.length := by
    have hn := congrArg List.length hnames_ufs
    simp at hn
    omega
  subst hd'
  subst hp'
  rw [← hgen] at hos
  simp only [List.getLast?_concat, Option.some.injEq] at hos
  subst hos
  refine ⟨?_, ?_, ?_⟩
  · rw [← hgen]
    simp
  · rw [← hgen]
    simp [List.getLastD_concat, hnames_ifs, hnames_ufs]
  · rw [← hgen]
    simp only [List.getLastD_concat]
    have hfa := fieldAssignsFrom_eq_zip
      ((⟨StructTypeName act.output_name, ifs ++ ufs⟩ : PhysStruct).fields)
      (d.implicit_columns_ ++ act.variable_name) 0
      (by simp [hlen_ifs, hlen_ufs])
    simp only [List.drop_zero] at hfa
    simp [hfa]


/-- A Go state whose symbol table already holds the implicit columns and a
user variable `myvar` (as they would be after `AddSpecialVariables` and an
argument lowering). -/
def c6D : Dwarvifier :=
  { goDw with scalar_var_types_ :=
      [("tgid_", .INT32), ("tgid_start_time_", .UINT64), ("time_", .UINT64),
       ("goid_", .INT64), ("myvar", .INT)] }

/-- The output struct generated for output `out` from `c6D`. -/
def c6S : PhysStruct :=
  ⟨"out_value_t",
   [⟨"tgid_", .INT32⟩, ⟨"tgid_start_time_", .UINT64⟩, ⟨"time_", .UINT64⟩,
    ⟨"goid_", .INT64⟩, ⟨"f1", .INT⟩]⟩

/-- The Dwarvifier state after the output action of the C6 witness. -/
def c6resD : Dwarvifier :=
  { c6D with
    structs_ := [("out_value_t", c6S)],
    outputs_ := [("out", ⟨"out", ["f1"], "out_value_t"⟩)],
    prog_structs := [c6S] }

/-- The probe after the output action of the C6 witness. -/
def c6resP : PhysProbe :=
  { emptyProbe with
    vars := [.structVar "out_value" "out_value_t"
      [("tgid_", "tgid_"), ("tgid_start_time_", "tgid_start_time_"),
       ("time_", "time_"), ("goid_", "goid_"), ("f1", "myvar")]],
    output_actions := [⟨"out", "out_value"⟩] }

/-- Witness for C6: the concrete output action on `out` with source
`myvar` generates the struct `out_value_t` with the four Go implicit
columns followed by `f1`, and the Struct variable assigns the implicit
columns first and `myvar` last. -/
theorem C6_output_struct_layout_witness :
    c6resD.prog_structs.map PhysStruct.name = ["out_value_t"]
    ∧ (c6resD.prog_structs.getLastD ⟨"", []⟩).fields.map StructField.name
      = ["tgid_", "tgid_start_time_", "time_", "goid_", "f1"]
    ∧ c6resP.vars = [.structVar "out_value" "out_value_t"
        [("tgid_", "tgid_"), ("tgid_start_time_", "tgid_start_time_"),
         ("time_", "time_"), ("goid_", "goid_"), ("f1", "myvar")]] := by
  have h : ProcessOutputAction c6D emptyProbe ⟨"out", ["myvar"]⟩
      = .ok (c6resD, c6resP) := by decide
  have hc := C6_output_struct_layout c6D emptyProbe ⟨"out", ["myvar"]⟩
    ⟨"out", ["f1"], ""⟩ c6resD c6resP (by decide) h
  simpa using hc


/-! ## C7: map-value reads past the registered field list of the struct -/

/-- A Go state in which map `M` has a registered one-field value struct. -/
def c7D : Dwarvifier :=
  { goDw with
    structs_ := [("M_value_t", ⟨"M_value_t", [⟨"f0", .UINT64⟩]⟩)],
    maps_ := [("M", ⟨"M", some .UINT64, some "M_value_t"⟩)] }

/-- C7 (code evaluated at the failing input): a map-value read listing two
value ids against the one-field struct `M_value_t` runs off the end of the
field list of the struct.  In the source this is `struct_decl->fields(1)` with
`fields_size() == 1`: a bounds-checked protobuf accessor that aborts the
process — modelled here by `ErrKind.CheckFailure` — NOT a returned
`InvariantViolation` Status. -/
theorem C7_mapval_excess_ids_abort :
    ProcessMapVal c7D emptyProbe ⟨"M", .TGID_PID, ["v0", "v1"]⟩ =
      .error ⟨.CheckFailure, "repeated field index out of range"⟩ := by decide

/-! ## C8: second incompatible stash silently overwrites -/

/-- A Go state with three typed variables in the symbol table and an
untyped map `M`. -/
def c8D : Dwarvifier :=
  { goDw with
    scalar_var_types_ := [("a", .INT), ("b", .UINT64), ("c", .INT64)],
    maps_ := [("M", ⟨"M", none, none⟩)] }

/-- First stash: `M <- {a}`. -/
def c8stash1 : MapStashAction := ⟨"M", .TGID_PID, ["a"]⟩

/-- Second stash on the same map with an incompatible schema: `M <- {b, c}`. -/
def c8stash2 : MapStashAction := ⟨"M", .TGID_PID, ["b", "c"]⟩

/-- Result of processing the first stash. -/
def c8After1 : Except Err (Dwarvifier × PhysProbe) :=
  ProcessStashAction c8D emptyProbe c8stash1

/-- Result of processing the first stash and then the second. -/
def c8After2 : Except Err (Dwarvifier × PhysProbe) :=
  match c8After1 with
  | .error e => .error e
  | .ok (d1, p1) => ProcessStashAction d1 p1 c8stash2

/-- The struct registry of a processing result (empty on error). -/
def resultStructs : Except Err (Dwarvifier × PhysProbe) → List (String × PhysStruct)
  | .ok (d, _) => d.structs_
  | .error _ => []

/-- The map index of a processing result (empty on error). -/
def resultMaps : Except Err (Dwarvifier × PhysProbe) → List (String × MapDecl)
  | .ok (d, _) => d.maps_
  | .error _ => []

/-- Whether a processing result is a success. -/
def isOkResult : Except Err (Dwarvifier × PhysProbe) → Bool
  | .ok _ => true
  | .error _ => false

/-- C8 (code evaluated at the failing input): the first stash sets map
`M`'s key type to UINT64 and its value type to the struct `M_value_t`
with schema `{a : INT}` — but a second stash on the same map with the
incompatible schema `{b : UINT64, c : INT64}` is NOT rejected: it
succeeds and silently replaces the registered `M_value_t` schema (the
consistency check is an explicit TODO in the source). -/
theorem C8_incompatible_stash_not_rejected :
    alookup "M_value_t" (resultStructs c8After1)
      = some ⟨"M_value_t", [⟨"a", .INT⟩]⟩
    ∧ alookup "M" (resultMaps c8After1)
      = some ⟨"M", some .UINT64, some "M_value_t"⟩
    ∧ isOkResult c8After2 = true
    ∧ alookup "M_value_t" (resultStructs c8After2)
      = some ⟨"M_value_t", [⟨"b", .UINT64⟩, ⟨"c", .INT64⟩]⟩
    ∧ alookup "M" (resultMaps c8After2)
      = some ⟨"M", some .UINT64, some "M_value_t"⟩ := by decide

/-! ## C10: constants are not recorded in the per-probe symbol table -/

/-- The names of the special variables, per language and tracepoint type. -/
def specialVarNames (language : Language) (tp : TracePointType) : List String :=
  (specialVarsList language tp).map PhysVar.varName

/-- Counterexample to C10: a probe whose constant is named `time_` — the
name of a special variable — followed by a stash listing `time_` does NOT
fail: the symbol-table lookup of the stash is satisfied by the entry of
the special variable (UINT64), not by the constant, and the pass succeeds. -/
def c10lpTime : LogicalProbe :=
  { name := "p", tp_type := .ENTRY,
    consts := [⟨"time_", .UINT64, "0"⟩], args := [], ret_vals := [],
    map_vals := [], function_latency := none,
    map_stash_actions := [⟨"M", .TGID_PID, ["time_"]⟩],
    map_delete_actions := [], output_actions := [] }

/-- Counterexample theorem for C10: the pass succeeds on `c10lpTime`
(the claim asserts it fails with an unknown-variable error), and the
stashed struct field was typed from the special variable `time_`. -/
theorem C10_special_named_constant_not_rejected :
    isOkResult (ProcessProbe goDw c10lpTime) = true
    ∧ alookup "M_value_t" (resultStructs (ProcessProbe goDw c10lpTime))
      = some ⟨"M_value_t", [⟨"time_", .UINT64⟩]⟩ := by decide


/-- C10 (amended): for a probe containing a constant with id `c` followed
by a map-stash action (respectively an output action) listing `c` as a
source variable, the pass fails with an unknown-variable error, provided
`c` is not the name of one of the special variables (which would satisfy
the lookup instead) and is not otherwise in the symbol table: processing
a constant emits the constant variable into the probe but never records
`c` in the per-probe symbol table consulted by
`GenerateMapValueStruct` and `GenerateOutputStruct`. -/
theorem C10_constant_missing_from_symtab (d : Dwarvifier) (nm : String)
    (c : Constant) (M O : String) (key : BPFHelper) (tp : TracePointType)
    (out : PerfBufferOutput) (fld : String)
    (hstart : alookup c.name d.scalar_var_types_ = none)
    (hns : c.name ∉ specialVarNames d.language_ tp)
    (hic : d.implicit_columns_
      = ["tgid_", "tgid_start_time_", "time_"]
        ++ (if d.language_ = .GOLANG then ["goid_"] else []))
    (hout : alookup O d.outputs_ = some out)
    (hfld : out.fields = [fld]) :
    ProcessProbe d
      { name := nm, tp_type := tp, consts := [c], args := [], ret_vals := [],
        map_vals := [], function_latency := none,
        map_stash_actions := [⟨M, key, [c.name]⟩], map_delete_actions := [],
        output_actions := [] }
      = .error ⟨.Internal,
          "GenerateMapValueStruct map " ++ M
          ++ ": Reference to unknown variable: " ++ c.name⟩
    ∧ ProcessProbe d
      { name := nm, tp_type := tp, consts := [c], args := [], ret_vals := [],
        map_vals := [], function_latency := none,
        map_stash_actions := [], map_delete_actions := [],
        output_actions := [⟨O, [c.name]⟩] }
      = .error ⟨.Internal,
          "GenerateOutputStruct output " ++ O
          ++ ": Reference to unknown variable " ++ c.name⟩ := by
  cases hl : d.language_ <;> rw [hl] at hns hic <;> cases tp <;>
    simp [specialVarNames, specialVarsList, PhysVar.varName, kSPVarName,
      kTGIDVarName, kTGIDPIDVarName, kTGIDStartTimeVarName, kKTimeVarName,
      kGOIDVarName, kRCVarName] at hns <;>
    constructor <;>
    simp [ProcessProbe, AddSpecialVariables, AddStandardVariables,
      AddRetProbeVariables, AddVariable, foldProcess, ProcessConstants,
      ProcessFunctionLatencyStep, ProcessStashAction, GenerateMapValueStruct,
      buildValueFields, ProcessOutputAction, GenerateOutputStruct,
      buildOutputFields, alookup, StructTypeName, hl, hic, hout, hfld,
      hstart, hns, kSPVarName, kTGIDVarName, kTGIDPIDVarName,
      kTGIDStartTimeVarName, kKTimeVarName, kGOIDVarName, kRCVarName]


/-- Witness for the amended C10: a probe with constant `myconst` and a
stash listing `myconst` fails with the unknown-variable error. -/
theorem C10_constant_missing_from_symtab_witness :
    ProcessProbe goDw
      { name := "p", tp_type := .ENTRY, consts := [⟨"myconst", .INT64, "42"⟩],
        args := [], ret_vals := [], map_vals := [], function_latency := none,
        map_stash_actions := [⟨"M", .TGID_PID, ["myconst"]⟩],
        map_delete_actions := [], output_actions := [] }
      = .error ⟨.Internal,
          "GenerateMapValueStruct map " ++ "M"
          ++ ": Reference to unknown variable: " ++ "myconst"⟩ :=
  (C10_constant_missing_from_symtab goDw "p" ⟨"myconst", .INT64, "42"⟩
    "M" "out" .TGID_PID .ENTRY ⟨"out", ["f1"], ""⟩ "f1"
    (by decide) (by decide) (by decide) (by decide) (by decide)).1

end DynamicTracing
